import Mathlib

/-
Verification of the MessageHandler repository (src/message_handler.py).

The module has three pure functions:
  generate_request_message      - builds a 4-byte request frame as a 32-character
                                  bit string;
  parse_din_status_response     - extracts the DIN status bit array from a
                                  response frame given as a bit string;
  din_status_to_32bit_signed_integer - converts a DIN bit array to a signed
                                  32-bit integer.

Embedding conventions:
  * Python bit strings (str of the characters '0'/'1') are List Bool, most
    significant / first-transmitted character first.  All claims restrict the
    inputs to such strings.
  * Python machine-unbounded ints are Nat (they are non-negative everywhere the
    claims range over) or Int where a value can be negative.
  * Python code that can raise becomes Except String; the error string records
    the exception raised by CPython at that point.
-/

set_option autoImplicit false
set_option maxRecDepth 8192

/-- Value of a bit list read as a big-endian binary numeral, i.e. the Python
expression int(s, 2) for a non-empty string s of '0'/'1' characters. -/
def natOfBitsB (l : List Bool) : Nat :=
  l.foldl (fun acc b => 2 * acc + (if b then 1 else 0)) 0

/-- Value of a 0/1 integer list read as a big-endian binary numeral: the Python
expression int(''.join(str(bit) for bit in l), 2) for l a list over 0/1. -/
def natOfBitsN (l : List Nat) : Nat :=
  l.foldl (fun acc b => 2 * acc + b) 0

/-- The w-character bit string bin(v)[2:].zfill(w) of a value v < 2^w, most
significant bit first. -/
def toBitsBE : Nat → Nat → List Bool
  | 0, _ => []
  | w + 1, v => v.testBit w :: toBitsBE w v

/-- Byte i (8 characters starting at position 8*i) of a frame given as a bit
string, read as an unsigned value. -/
def byteAt (frame : List Bool) (i : Nat) : Nat :=
  natOfBitsB ((frame.drop (8 * i)).take 8)

/-- Number of binary digits of n computed with explicit fuel; with fuel >= n
this is len(bin(n)[2:]) for n >= 1, and 0 for n = 0. -/
def pyBinLenAux : Nat → Nat → Nat
  | _, 0 => 0
  | 0, _ + 1 => 0
  | fuel + 1, n + 1 => pyBinLenAux fuel ((n + 1) / 2) + 1

/-- len(bin(n)[2:]) in Python: the number of binary digits of n, with bin(0)
giving the single digit '0'. -/
def pyBinLen (n : Nat) : Nat :=
  max 1 (pyBinLenAux n n)

/-- generate_request_message from src/message_handler.py.

  * message_id = b'RQ'; int.from_bytes(b'RQ', 'big') = 0x5251.
  * bin_command_number = bin(command_number)[2:].zfill(8), so its length is
    max 8 (len(bin(n)[2:])); the function raises when that length exceeds 32.
  * command_number_8bit = command_number & 0xFF.
  * int_rep_0to2_bytes = (0x5251 << 8) | command_number_8bit; this value is
    below 2^24, so the three 8-character slices of its zfill(24) binary string
    are its three bytes: v >> 16, (v >> 8) & 0xFF and v & 0xFF, and
    int_rep_3rd_byte is their (un-reduced) sum.
  * int_rep_0to3_bytes = (int_rep_0to2_bytes << 8) | int_rep_3rd_byte, and the
    result is bin(...)[2:].zfill(32); the value is below 2^32 (its top byte is
    0x52 and the OR-ed sum is below 2^9), so the result is its 32-bit string. -/
def generate_request_message (command_number : Nat) : Except String (List Bool) :=
  let num_bits := max 8 (pyBinLen command_number)
  if num_bits > 32 then
    Except.error "ValueError: Command number should be less or equal to 32 bits long."
  else
    let command_number_8bit := command_number &&& 0xFF
    let int_rep_0to2_bytes := (0x5251 <<< 8) ||| command_number_8bit
    let int_rep_3rd_byte :=
      (int_rep_0to2_bytes >>> 16) + ((int_rep_0to2_bytes >>> 8) &&& 0xFF)
        + (int_rep_0to2_bytes &&& 0xFF)
    let int_rep_0to3_bytes := (int_rep_0to2_bytes <<< 8) ||| int_rep_3rd_byte
    Except.ok (toBitsBE 32 int_rep_0to3_bytes)

/-- The 32-bit value packed by generate_request_message once the command byte
c = command_number & 0xFF is fixed (the body of the function after the length
check, as a function of c). -/
def coreVal (c : Nat) : Nat :=
  let v := (0x5251 <<< 8) ||| c
  (v <<< 8) ||| ((v >>> 16) + ((v >>> 8) &&& 0xFF) + (v &&& 0xFF))

/-- parse_din_status_response from src/message_handler.py.

  * byte_lenght_of_din_status = int(response_message[24:40], 2): the slice
    response_message[24:40] is drop 24 / take 16; int(s, 2) raises ValueError
    when the slice is empty (input shorter than 25 characters).
  * din_status = response_message[40 : 40 + byte_lenght_of_din_status * 8].
  * the result is [int(contact) for contact in din_status]. -/
def parse_din_status_response (response_message : List Bool) : Except String (List Nat) :=
  let lengthSlice := (response_message.drop 24).take 16
  if lengthSlice = [] then
    Except.error "ValueError: invalid literal for int() with base 2"
  else
    let byte_lenght_of_din_status := natOfBitsB lengthSlice
    let din_status := (response_message.drop 40).take (byte_lenght_of_din_status * 8)
    Except.ok (din_status.map fun contact => if contact then 1 else 0)

/-- din_status_to_32bit_signed_integer from src/message_handler.py, on bit
arrays over 0/1 (the domain every claim ranges over).

  * if len(response_message) > 32: raise ValueError.
  * bit_string = ''.join(str(bit) for bit in response_message) and
    unsigned_value = int(bit_string, 2): int raises ValueError on the empty
    string, and on the 0/1 domain the value is natOfBitsN; entries other than
    0/1 are kept out of the model by the same error branch.
  * if unsigned_value & (1 << (num_bits - 1)): signed_value =
    unsigned_value - (1 << num_bits), else unsigned_value.
  * signed_value & 0xFFFFFFFF on a (possibly negative) Python int is reduction
    modulo 2^32, i.e. emod by 0x100000000; then subtract 0x100000000 when the
    masked value is at least 0x80000000. -/
def din_status_to_32bit_signed_integer (response_message : List Nat) : Except String Int :=
  if response_message.length > 32 then
    Except.error "ValueError: Array length must be a less or equal than 32 bits long."
  else if response_message = [] ∨ ¬ (∀ b ∈ response_message, b ≤ 1) then
    Except.error "ValueError: invalid literal for int() with base 2"
  else
    let unsigned_value : Nat := natOfBitsN response_message
    let num_bits : Nat := response_message.length
    let signed_value : Int :=
      if unsigned_value &&& (1 <<< (num_bits - 1)) ≠ 0 then
        (unsigned_value : Int) - ((1 <<< num_bits : Nat) : Int)
      else
        (unsigned_value : Int)
    let signed_value_32bit : Int := signed_value % 0x100000000
    Except.ok
      (if signed_value_32bit ≥ 0x80000000 then signed_value_32bit - 0x100000000
       else signed_value_32bit)

/-- The width-w two's-complement value of a bit array of length w (most
significant bit first), following the spec's words: parse the array as an
unsigned integer and subtract 2^w when the leading (sign) bit is set. -/
def twosComplementValue (l : List Nat) : Int :=
  if l.headD 0 = 1 then (natOfBitsN l : Int) - 2 ^ l.length
  else (natOfBitsN l : Int)

/-- The response message of the example usage in src/message_handler.py:
the 56-character string 01010010010100110001111100000000000000011010101011111111. -/
def exampleResponseMessage : List Bool :=
  [false, true, false, true, false, false, true, false,
   false, true, false, true, false, false, true, true,
   false, false, false, true, true, true, true, true,
   false, false, false, false, false, false, false, false,
   false, false, false, false, false, false, false, true,
   true, false, true, false, true, false, true, false,
   true, true, true, true, true, true, true, true]

/-- On an input with more than 24 characters the length-field slice is
non-empty, so parse_din_status_response returns the mapped payload slice. -/
theorem parse_ok_of {msg : List Bool} (h : 24 < msg.length) :
    parse_din_status_response msg =
      Except.ok (((msg.drop 40).take (natOfBitsB ((msg.drop 24).take 16) * 8)).map
        fun contact => if contact then 1 else 0) := by
  have hne : ¬ ((msg.drop 24).take 16 = []) := by
    intro heq
    rcases List.take_eq_nil_iff.mp heq with h16 | hdrop
    · omega
    · have := List.drop_eq_nil_iff.mp hdrop
      omega
  simp only [parse_din_status_response]
  rw [if_neg hne]

/-- On an input of at most 24 characters the length-field slice
response_message[24:40] is empty and int('', 2) raises ValueError. -/
theorem parse_err_of {msg : List Bool} (h : msg.length ≤ 24) :
    parse_din_status_response msg =
      Except.error "ValueError: invalid literal for int() with base 2" := by
  have hnil : (msg.drop 24).take 16 = [] := by
    rw [List.take_eq_nil_iff]
    right
    rw [List.drop_eq_nil_iff]
    omega
  simp only [parse_din_status_response]
  rw [if_pos hnil]

/-- Claim C3 (corrected): parse_din_status_response degrades silently (returns
a possibly short or empty array) on every 0/1 input with more than 24
characters, but on inputs of at most 24 characters — too short to contain the
length-field slice — it raises ValueError instead of returning an array. -/
theorem c3_parse_silent_only_above_24 (msg : List Bool) :
    if 24 < msg.length then ∃ arr, parse_din_status_response msg = Except.ok arr
    else parse_din_status_response msg =
      Except.error "ValueError: invalid literal for int() with base 2" := by
  by_cases h : 24 < msg.length
  · rw [if_pos h]
    exact ⟨_, parse_ok_of h⟩
  · rw [if_neg h]
    exact parse_err_of (by omega)

/-- Witness for C3 at the concrete input of 41 one-characters. -/
theorem c3_parse_silent_only_above_24_witness :
    if 24 < (List.replicate 41 true).length then
      ∃ arr, parse_din_status_response (List.replicate 41 true) = Except.ok arr
    else parse_din_status_response (List.replicate 41 true) =
      Except.error "ValueError: invalid literal for int() with base 2" :=
  c3_parse_silent_only_above_24 (List.replicate 41 true)

/-- Counterexample to claim C3 as stated: on the empty input (a frame too
short to contain a length field) parse_din_status_response raises (returns an
error) instead of returning an array. -/
theorem c3_counterexample :
    parse_din_status_response [] =
      Except.error "ValueError: invalid literal for int() with base 2" := rfl

/-- A 40-bit frame laid out per the spec's section 6 wire layout: 16-bit tag
0x5251, 8-bit command 0x00, 8-bit length byte 0x01 at bits 24-31, and one
8-bit payload byte 0xFF at bits 32-39. -/
def c4Frame : List Bool :=
  [false, true, false, true, false, false, true, false,
   false, true, false, true, false, false, false, true] ++
  List.replicate 8 false ++
  (List.replicate 7 false ++ [true]) ++
  List.replicate 8 true

/-- Counterexample to claim C4 as stated: on c4Frame, laid out per the spec's
section 6 with length byte N = 1 at bits 24-31 and payload at bits 32-39, the
parser returns the empty array, not the 8 payload bits (it reads the 16 bits
at [24:40) as the length 0x01FF = 511 and slices past the end of the frame). -/
theorem c4_counterexample :
    parse_din_status_response c4Frame = Except.ok [] ∧
    ([] : List Nat) ≠ List.replicate 8 1 := by
  constructor
  · rfl
  · decide

/-- Claim C4 (corrected): the parser takes the length N from the 16 bits at
[24:40) and the payload from bit 40 on: for every frame laid out as
[16-bit tag][8-bit command][16-bit length N][8N-bit payload] it returns
exactly the 8N payload bits beginning at bit 40, each as 0 or 1. -/
theorem c4_sixteen_bit_length_layout (tag cmd nfield payload : List Bool)
    (htag : tag.length = 16) (hcmd : cmd.length = 8) (hn : nfield.length = 16)
    (hp : payload.length = 8 * natOfBitsB nfield) :
    parse_din_status_response (tag ++ cmd ++ nfield ++ payload) =
      Except.ok (payload.map fun contact => if contact then 1 else 0) := by
  have h24 : (tag ++ cmd).length = 24 := by simp [htag, hcmd]
  have hassoc : tag ++ cmd ++ nfield ++ payload = (tag ++ cmd) ++ (nfield ++ payload) := by
    simp [List.append_assoc]
  have hdrop24 : (tag ++ cmd ++ nfield ++ payload).drop 24 = nfield ++ payload := by
    rw [hassoc, ← h24, List.drop_left]
  have htake16 : ((tag ++ cmd ++ nfield ++ payload).drop 24).take 16 = nfield := by
    rw [hdrop24, ← hn, List.take_left]
  have hlen40 : ((tag ++ cmd) ++ nfield).length = 40 := by simp [htag, hcmd, hn]
  have hdrop40 : (tag ++ cmd ++ nfield ++ payload).drop 40 = payload := by
    rw [show tag ++ cmd ++ nfield ++ payload = ((tag ++ cmd) ++ nfield) ++ payload from rfl,
      ← hlen40, List.drop_left]
  have hne : ((tag ++ cmd ++ nfield ++ payload).drop 24).take 16 ≠ [] := by
    rw [htake16]
    intro hnil
    rw [hnil] at hn
    simp at hn
  simp only [parse_din_status_response]
  rw [if_neg hne, htake16, hdrop40, List.take_of_length_le (by omega)]

/-- Witness for the corrected C4 at a concrete frame with N = 1 and payload
byte 10101010. -/
theorem c4_sixteen_bit_length_layout_witness :
    parse_din_status_response
        (List.replicate 16 false ++ List.replicate 8 false ++
          (List.replicate 15 false ++ [true]) ++
          [true, false, true, false, true, false, true, false]) =
      Except.ok ([true, false, true, false, true, false, true, false].map
        fun contact => if contact then 1 else 0) :=
  c4_sixteen_bit_length_layout _ _ _ _ (by decide) (by decide) (by decide) (by decide)

/-- Claim C6 (confirmed): for every frame whose bits [24:40) encode N and
which has at least 40 + 8N bits, the parser returns exactly the 8N bits at
positions [40, 40 + 8N), in order, as integers. -/
theorem c6_roundtrip (msg : List Bool) (N : Nat)
    (hN : N = natOfBitsB ((msg.drop 24).take 16)) (hlen : 40 + 8 * N ≤ msg.length) :
    parse_din_status_response msg =
      Except.ok (((msg.drop 40).take (8 * N)).map fun contact => if contact then 1 else 0) ∧
    ((msg.drop 40).take (8 * N)).length = 8 * N := by
  have h24 : 24 < msg.length := by omega
  constructor
  · rw [parse_ok_of h24, ← hN, Nat.mul_comm N 8]
  · simp only [List.length_take, List.length_drop]
    omega

/-- Witness for C6 at the example-usage response message (N = 1). -/
theorem c6_roundtrip_witness :
    parse_din_status_response exampleResponseMessage =
      Except.ok (((exampleResponseMessage.drop 40).take (8 * 1)).map
        fun contact => if contact then 1 else 0) ∧
    ((exampleResponseMessage.drop 40).take (8 * 1)).length = 8 * 1 :=
  c6_roundtrip exampleResponseMessage 1 (by decide) (by decide)

/-- Claim C10 (confirmed): on every 0/1 input of length at least 40 the parser
returns an array of length min(8N, L - 40) with N the value of bits [24:40),
whose entries are 0 or 1 and appear in input order (entry i comes from the
input character at position 40 + i). -/
theorem c10_length_and_order (msg : List Bool) (h : 40 ≤ msg.length) :
    ∃ arr, parse_din_status_response msg = Except.ok arr ∧
      arr.length = min (8 * natOfBitsB ((msg.drop 24).take 16)) (msg.length - 40) ∧
      (∀ i, i < arr.length → arr.getD i 2 = if msg.getD (40 + i) false then 1 else 0) ∧
      (∀ x ∈ arr, x = 0 ∨ x = 1) := by
  have h24 : 24 < msg.length := by omega
  refine ⟨_, parse_ok_of h24, ?_, ?_, ?_⟩
  · simp only [List.length_map, List.length_take, List.length_drop]
    omega
  · intro i hi
    simp only [List.length_map, List.length_take, List.length_drop] at hi
    have hiN : i < natOfBitsB ((msg.drop 24).take 16) * 8 := by omega
    have hi40 : 40 + i < msg.length := by omega
    rw [List.getD_eq_getElem?_getD, List.getElem?_map, List.getElem?_take, if_pos hiN,
      List.getElem?_drop, List.getElem?_eq_getElem hi40,
      List.getD_eq_getElem?_getD, List.getElem?_eq_getElem hi40]
    simp
  · intro x hx
    rcases List.mem_map.mp hx with ⟨b, hb, rfl⟩
    cases b <;> simp

/-- Witness for C10 at the example-usage response message. -/
theorem c10_length_and_order_witness :
    ∃ arr, parse_din_status_response exampleResponseMessage = Except.ok arr ∧
      arr.length = min
        (8 * natOfBitsB ((exampleResponseMessage.drop 24).take 16))
        (exampleResponseMessage.length - 40) ∧
      (∀ i, i < arr.length →
        arr.getD i 2 = if exampleResponseMessage.getD (40 + i) false then 1 else 0) ∧
      (∀ x ∈ arr, x = 0 ∨ x = 1) :=
  c10_length_and_order exampleResponseMessage (by decide)

/-- With enough fuel, the digit count of a number below 2^k is at most k. -/
theorem pyBinLenAux_le (fuel n k : Nat) (hf : n ≤ fuel) (h : n < 2 ^ k) :
    pyBinLenAux fuel n ≤ k := by
  induction fuel generalizing n k with
  | zero =>
    have hn : n = 0 := by omega
    subst hn
    simp [pyBinLenAux]
  | succ fuel ih =>
    cases n with
    | zero => simp [pyBinLenAux]
    | succ m =>
      cases k with
      | zero => omega
      | succ k =>
        have h2 : 2 ^ (k + 1) = 2 * 2 ^ k := by rw [pow_succ]; omega
        have hlt : (m + 1) / 2 < 2 ^ k := by omega
        have hle : (m + 1) / 2 ≤ fuel := by omega
        have hrec := ih ((m + 1) / 2) k hle hlt
        simp only [pyBinLenAux]
        omega

/-- The length check of generate_request_message never fires for a command
number below 2^32: the function reaches the packing code and returns the
32-character string of coreVal applied to the masked command byte. -/
theorem generate_request_message_eq (n : Nat) (h : n < 4294967296) :
    generate_request_message n = Except.ok (toBitsBE 32 (coreVal (n &&& 0xFF))) := by
  have haux : pyBinLenAux n n ≤ 32 := pyBinLenAux_le n n 32 le_rfl h
  have hb : pyBinLen n ≤ 32 := by
    unfold pyBinLen
    omega
  simp only [generate_request_message, coreVal]
  rw [if_neg (by omega)]

/-- The command byte is below 256. -/
theorem and_255_lt (n : Nat) : n &&& 0xFF < 256 :=
  Nat.lt_succ_of_le Nat.and_le_right

/-- For every command byte c, the value packed by the builder is the 24-bit
header shifted left by 8, OR-ed (not added) with the un-reduced checksum sum
0xA3 + c. -/
theorem coreVal_eq (c : Nat) (hc : c < 256) :
    coreVal c = ((0x5251 <<< 16) ||| (c <<< 8)) ||| (0xA3 + c) := by
  revert c
  decide

/-- Byte 3 of the built frame is the checksum sum reduced to 8 bits. -/
theorem byteAt_three (c : Nat) (hc : c < 256) :
    byteAt (toBitsBE 32 (coreVal c)) 3 = (0x52 + 0x51 + c) &&& 0xFF := by
  revert c
  decide

/-- Byte 2 of the built frame is the command byte, with its lowest bit forced
to 1 exactly when the checksum sum 0xA3 + c carries into bit 8. -/
theorem byteAt_two (c : Nat) (hc : c < 256) :
    byteAt (toBitsBE 32 (coreVal c)) 2 = if 0x5D ≤ c then c ||| 1 else c := by
  revert c
  decide

/-- Claim C1 (code bug): the claim says byte 2 of the frame encodes
n & 0xFF, the intent stated by the source comments (byte 2 is the command
byte, byte 3 the checksum); but at command number 94 the un-reduced checksum
sum 0xA3 + 94 = 0x101 is OR-ed into the shifted header, its ninth bit lands in
byte 2, and the returned frame is 0x52515F01 whose byte 2 is 95, not 94. -/
theorem c1_carry_corrupts_command_byte :
    generate_request_message 94 = Except.ok (toBitsBE 32 0x52515F01) ∧
    byteAt (toBitsBE 32 0x52515F01) 2 = 95 ∧ (95 : Nat) ≠ 94 := by
  refine ⟨rfl, rfl, ?_⟩
  decide

/-- Claim C7 (confirmed): for every command number below 2^32 the frame is
built, and its byte 3 (bits 24-31) is the arithmetic sum of the three
preceding bytes 0x52, 0x51 and n & 0xFF, truncated to 8 bits. -/
theorem c7_checksum_byte (n : Nat) (h : n < 4294967296) :
    ∃ frame, generate_request_message n = Except.ok frame ∧
      byteAt frame 3 = (0x52 + 0x51 + (n &&& 0xFF)) &&& 0xFF :=
  ⟨_, generate_request_message_eq n h, byteAt_three (n &&& 0xFF) (and_255_lt n)⟩

/-- Witness for C7 at the command number 300 (command byte 44). -/
theorem c7_checksum_byte_witness :
    ∃ frame, generate_request_message 300 = Except.ok frame ∧
      byteAt frame 3 = (0x52 + 0x51 + (300 &&& 0xFF)) &&& 0xFF :=
  c7_checksum_byte 300 (by decide)

/-- The 32-character bit string 01010010010100010001111111000010, i.e. the
value 0x52511FC2. -/
def c8Expected : List Bool :=
  [false, true, false, true, false, false, true, false,
   false, true, false, true, false, false, false, true,
   false, false, false, true, true, true, true, true,
   true, true, false, false, false, false, true, false]

/-- Claim C8 (confirmed): generate_request_message(0x1F) returns exactly the
32-character bit string 01010010010100010001111111000010, whose value is
0x52511FC2 (tag 0x52 0x51, command byte 0x1F, checksum byte 0xC2). -/
theorem c8_concrete_frame :
    generate_request_message 0x1F = Except.ok c8Expected ∧
    natOfBitsB c8Expected = 0x52511FC2 := by
  exact ⟨rfl, rfl⟩

/-- Claim C9 (confirmed): for every command number n below 2^32 the frame
encodes the 32-bit value ((0x5251 << 16) | ((n & 0xFF) << 8)) | (0xA3 +
(n & 0xFF)) — the un-reduced checksum sum is OR-ed, not masked, into the
shifted 24-bit header — and byte 2 of that frame is (n & 0xFF) | 1 when
n & 0xFF >= 0x5D (the sum carries into bit 8) and n & 0xFF otherwise. -/
theorem c9_unreduced_checksum_or (n : Nat) (h : n < 4294967296) :
    generate_request_message n =
      Except.ok (toBitsBE 32
        (((0x5251 <<< 16) ||| ((n &&& 0xFF) <<< 8)) ||| (0xA3 + (n &&& 0xFF)))) ∧
    byteAt (toBitsBE 32
        (((0x5251 <<< 16) ||| ((n &&& 0xFF) <<< 8)) ||| (0xA3 + (n &&& 0xFF)))) 2 =
      (if 0x5D ≤ n &&& 0xFF then (n &&& 0xFF) ||| 1 else n &&& 0xFF) := by
  have hc := and_255_lt n
  have hcv := coreVal_eq (n &&& 0xFF) hc
  constructor
  · rw [generate_request_message_eq n h, hcv]
  · rw [← hcv]
    exact byteAt_two (n &&& 0xFF) hc

/-- Witness for C9 at the command number 350 (command byte 94, a case where
the checksum carry corrupts byte 2). -/
theorem c9_unreduced_checksum_or_witness :
    generate_request_message 350 =
      Except.ok (toBitsBE 32
        (((0x5251 <<< 16) ||| ((350 &&& 0xFF) <<< 8)) ||| (0xA3 + (350 &&& 0xFF)))) ∧
    byteAt (toBitsBE 32
        (((0x5251 <<< 16) ||| ((350 &&& 0xFF) <<< 8)) ||| (0xA3 + (350 &&& 0xFF)))) 2 =
      (if 0x5D ≤ 350 &&& 0xFF then (350 &&& 0xFF) ||| 1 else 350 &&& 0xFF) :=
  c9_unreduced_checksum_or 350 (by decide)

/-- Folding the binary accumulator from a seed a over l prepends a as high
bits. -/
theorem natOfBitsN_foldl (l : List Nat) (a : Nat) :
    l.foldl (fun acc b => 2 * acc + b) a = a * 2 ^ l.length + natOfBitsN l := by
  induction l generalizing a with
  | nil => simp [natOfBitsN]
  | cons b t ih =>
    have h1 : (b :: t).foldl (fun acc b => 2 * acc + b) a
        = t.foldl (fun acc b => 2 * acc + b) (2 * a + b) := rfl
    have h2 : natOfBitsN (b :: t) = t.foldl (fun acc b => 2 * acc + b) b := by
      simp [natOfBitsN]
    rw [h1, ih (2 * a + b), h2, ih b, List.length_cons, pow_succ]
    ring

/-- The head of a bit list carries weight 2^(length of the tail). -/
theorem natOfBitsN_cons (b : Nat) (t : List Nat) :
    natOfBitsN (b :: t) = b * 2 ^ t.length + natOfBitsN t := by
  have h2 : natOfBitsN (b :: t) = t.foldl (fun acc b => 2 * acc + b) b := by
    simp [natOfBitsN]
  rw [h2, natOfBitsN_foldl]

/-- A list over 0/1 denotes a value below 2^length. -/
theorem natOfBitsN_lt (l : List Nat) (hb : ∀ b ∈ l, b ≤ 1) :
    natOfBitsN l < 2 ^ l.length := by
  induction l with
  | nil => simp [natOfBitsN]
  | cons b t ih =>
    have hbb : b ≤ 1 := hb b (List.mem_cons_self b t)
    have hbt : ∀ x ∈ t, x ≤ 1 := fun x hx => hb x (List.mem_cons_of_mem b hx)
    have ht := ih hbt
    have h2 : b * 2 ^ t.length ≤ 2 ^ t.length := by
      calc b * 2 ^ t.length ≤ 1 * 2 ^ t.length := Nat.mul_le_mul_right _ hbb
        _ = 2 ^ t.length := one_mul _
    rw [natOfBitsN_cons, List.length_cons, pow_succ]
    omega

/-- The sign-bit test of the interpreter fires exactly when the leading bit of
the array is 1. -/
theorem sign_bit_test (b : Nat) (t : List Nat) (hbb : b ≤ 1) (hbt : ∀ x ∈ t, x ≤ 1) :
    (natOfBitsN (b :: t) &&& (1 <<< t.length) ≠ 0) ↔ b = 1 := by
  have ht := natOfBitsN_lt t hbt
  have hdiv : natOfBitsN (b :: t) / 2 ^ t.length = b := by
    rw [natOfBitsN_cons, Nat.mul_comm b (2 ^ t.length),
      Nat.mul_add_div (Nat.pos_pow_of_pos t.length (by omega)),
      Nat.div_eq_of_lt ht]
    omega
  rw [Nat.shiftLeft_eq, one_mul, Nat.and_two_pow, Nat.testBit_to_div_mod, hdiv]
  rcases Nat.le_one_iff_eq_zero_or_eq_one.mp hbb with rfl | rfl
  · simp
  · simp

/-- Claim C2 (corrected): on the empty array the interpreter raises the
ValueError of int('', 2) instead of returning 0. -/
theorem c2_empty_array_raises :
    din_status_to_32bit_signed_integer [] =
      Except.error "ValueError: invalid literal for int() with base 2" := rfl

/-- Counterexample to claim C2 as stated: the empty array does not yield the
value 0. -/
theorem c2_counterexample :
    din_status_to_32bit_signed_integer [] ≠ Except.ok 0 := by
  intro hcontra
  rw [show din_status_to_32bit_signed_integer [] =
      Except.error "ValueError: invalid literal for int() with base 2" from rfl] at hcontra
  exact Except.noConfusion hcontra

/-- Claim C5 (confirmed): on every bit array over 0/1 of length 1..32, the
two-stage computation of the interpreter (subtract 2^width when the sign bit
is set, then reduce modulo 2^32 and subtract 2^32 when the reduced value is at
least 2^31) returns exactly the width-w two's-complement value of the array,
i.e. it agrees with direct sign extension for every such width. -/
theorem c5_two_stage_equals_sign_extension (l : List Nat) (h1 : 1 ≤ l.length)
    (h2 : l.length ≤ 32) (hb : ∀ b ∈ l, b ≤ 1) :
    din_status_to_32bit_signed_integer l = Except.ok (twosComplementValue l) := by
  cases l with
  | nil => simp at h1
  | cons b t =>
    have hbb : b ≤ 1 := hb b (List.mem_cons_self b t)
    have hbt : ∀ x ∈ t, x ≤ 1 := fun x hx => hb x (List.mem_cons_of_mem b hx)
    have ht : natOfBitsN t < 2 ^ t.length := natOfBitsN_lt t hbt
    have hk : t.length ≤ 31 := by
      rw [List.length_cons] at h2
      omega
    have hK : 2 ^ t.length ≤ 2147483648 := by
      calc 2 ^ t.length ≤ 2 ^ 31 := Nat.pow_le_pow_right (by omega) hk
        _ = 2147483648 := by norm_num
    have hsign := sign_bit_test b t hbb hbt
    simp only [din_status_to_32bit_signed_integer, List.length_cons, Nat.add_sub_cancel]
    rw [if_neg (by omega)]
    rw [if_neg (by push_neg; exact ⟨List.cons_ne_nil b t, hb⟩)]
    rcases Nat.le_one_iff_eq_zero_or_eq_one.mp hbb with rfl | rfl
    · have uEq : natOfBitsN (0 :: t) = natOfBitsN t := by
        rw [natOfBitsN_cons]
        ring
      have htw : twosComplementValue (0 :: t) = (natOfBitsN (0 :: t) : Int) := by
        simp only [twosComplementValue]
        rw [if_neg (by simp)]
      rw [if_neg (show ¬ (natOfBitsN (0 :: t) &&& 1 <<< t.length ≠ 0) by simp [hsign]), htw]
      congr 1
      generalize hP : (2:Nat) ^ t.length = P at ht hK
      rw [if_neg (by omega)]
      omega
    · have uEq : natOfBitsN (1 :: t) = 2 ^ t.length + natOfBitsN t := by
        rw [natOfBitsN_cons]
        ring
      have hsh : (1 <<< (t.length + 1) : Nat) = 2 * 2 ^ t.length := by
        rw [Nat.shiftLeft_eq, pow_succ]
        ring
      have htw : twosComplementValue (1 :: t) =
          (natOfBitsN (1 :: t) : Int) - ((2 * 2 ^ t.length : Nat) : Int) := by
        simp only [twosComplementValue]
        rw [if_pos (by simp), List.length_cons, pow_succ]
        push_cast
        ring
      rw [if_pos (hsign.mpr rfl), hsh, htw]
      congr 1
      generalize hP : (2:Nat) ^ t.length = P at ht hK uEq ⊢
      rw [if_pos (by omega)]
      omega

/-- Witness for C5 at the 32-element all-ones array, whose two's-complement
value is -1. -/
theorem c5_two_stage_equals_sign_extension_witness :
    din_status_to_32bit_signed_integer (List.replicate 32 1) =
      Except.ok (twosComplementValue (List.replicate 32 1)) ∧
    twosComplementValue (List.replicate 32 1) = -1 :=
  ⟨c5_two_stage_equals_sign_extension (List.replicate 32 1)
      (by decide) (by decide) (by decide),
    by decide⟩

